import Mathlib

/-!
Shallow embedding of the claude-code-kakaotalk relay server core:
the in-memory session store (`src/relay-server/src/store.ts`), the
question-intake route (`src/relay-server/src/routes/questions.ts`),
the reply long-poll route (`src/relay-server/src/routes/replies.ts`)
and the Kakao webhook handler (`src/relay-server/src/routes/webhook.ts`).

Modelling conventions:
* RFC-3339 timestamp strings are modelled as `Nat` instants; the code
  compares them with lexicographic `>`, which on ISO strings agrees
  with chronological order, so `Nat` with `>` is a faithful image.
* The JS `Map` iterates in insertion order, so the store is a
  `List Session` in insertion order; lookup is first-match by id.
* JS objects are mutated in place; here every mutating operation
  returns the updated store, and `updateSession` rewrites the session
  with the given id.
* `parseInt(x, 10) || 25` yields 25 both when the parameter is absent
  or unparseable (`NaN`) and when it parses to `0`; the parsed value
  is modelled as `Option Int` with `none` for absent/NaN.
-/

namespace KakaoRelay

/-- `SessionStatus` enum from `types.ts`. -/
inductive SessionStatus where
  | IDLE
  | WAITING_USER
  | RESOLVED
  | EXPIRED
  | CANCELED
  deriving DecidableEq, Repr

/-- `Severity` enum from `types.ts`. -/
inductive Severity where
  | INFO
  | WARNING
  | DANGER
  deriving DecidableEq, Repr

/-- `ReplyType` enum from `types.ts`. -/
inductive ReplyType where
  | TEXT
  | CHOICE
  | CANCEL
  deriving DecidableEq, Repr

/-- Opaque `metadata` record: `Record<string, unknown>` passed through
unmodified, modelled as an association list of strings. -/
abbrev Metadata := List (String × String)

/-- `PendingQuestion` from `types.ts`. -/
structure PendingQuestion where
  message_id : String
  text : String
  choices : Option (List String)
  timeout_sec : Option Nat
  severity : Severity
  metadata : Option Metadata
  created_at : Nat
  deriving DecidableEq, Repr

/-- `Reply` from `types.ts`. -/
structure Reply where
  reply_id : String
  type : ReplyType
  text : Option String
  choice : Option String
  created_at : Nat
  deriving DecidableEq, Repr

/-- `Session` from `types.ts`. -/
structure Session where
  session_id : String
  status : SessionStatus
  pending_question : Option PendingQuestion
  replies : List Reply
  created_at : Nat
  updated_at : Nat
  owner_user_id : Option String
  deriving DecidableEq, Repr

/-- The in-memory session table (`const sessions = new Map()` in
`store.ts`), as a list in insertion order. -/
abbrev Store := List Session

/-- `getSession` from `store.ts`: `sessions.get(sessionId)`. -/
def getSession (store : Store) (sessionId : String) : Option Session :=
  store.find? (fun s => s.session_id = sessionId)

/-- `getOrCreateSession` from `store.ts`: return the existing session
unchanged, or insert a fresh one with the given initial status, empty
replies and optional owner. Returns the session and the new store. -/
def getOrCreateSession (store : Store) (sessionId : String)
    (initialStatus : SessionStatus) (ownerUserId : Option String)
    (t : Nat) : Session × Store :=
  match getSession store sessionId with
  | some s => (s, store)
  | none =>
    let s : Session :=
      { session_id := sessionId
        status := initialStatus
        pending_question := none
        replies := []
        created_at := t
        updated_at := t
        owner_user_id := ownerUserId }
    (s, store ++ [s])

/-- In-place mutation of the session object with the given id. -/
def updateSession (store : Store) (sessionId : String)
    (f : Session → Session) : Store :=
  store.map (fun s => if s.session_id = sessionId then f s else s)

/-- `setPendingQuestion` from `store.ts`: unconditionally install the
question, set `WAITING_USER`, refresh `updated_at`. -/
def setPendingQuestion (s : Session) (question : PendingQuestion)
    (t : Nat) : Session :=
  { s with
    pending_question := some question
    status := SessionStatus.WAITING_USER
    updated_at := t }

/-- `addReply` from `store.ts`: append the reply, clear
`pending_question`, set `RESOLVED`, refresh `updated_at`. -/
def addReply (s : Session) (reply : Reply) (t : Nat) : Session :=
  { s with
    replies := s.replies ++ [reply]
    pending_question := none
    status := SessionStatus.RESOLVED
    updated_at := t }

/-- Loop body of `findMostRecentWaitingSession` in `store.ts`. -/
def waitingStep (latest : Option Session) (s : Session) : Option Session :=
  if s.status ≠ SessionStatus.WAITING_USER then latest
  else
    match latest with
    | none => some s
    | some l => if s.updated_at > l.updated_at then some s else latest

/-- `findMostRecentWaitingSession` from `store.ts`: global scan for the
`WAITING_USER` session with the latest `updated_at`. -/
def findMostRecentWaitingSession (store : Store) : Option Session :=
  store.foldl waitingStep none

/-- Loop body of `findMostRecentWaitingSessionForUser` in `store.ts`. -/
def waitingStepForUser (userId : String) (latest : Option Session)
    (s : Session) : Option Session :=
  if s.status ≠ SessionStatus.WAITING_USER then latest
  else if s.owner_user_id ≠ some userId then latest
  else
    match latest with
    | none => some s
    | some l => if s.updated_at > l.updated_at then some s else latest

/-- `findMostRecentWaitingSessionForUser` from `store.ts`: scan
restricted to sessions owned by `userId`. -/
def findMostRecentWaitingSessionForUser (store : Store)
    (userId : String) : Option Session :=
  store.foldl (waitingStepForUser userId) none

/-! ### Question intake: `POST /v1/sessions/:session_id/questions` -/

/-- The authenticated identity attached by `requireAuth` in
`middleware/auth.ts`: Mode A static token or Mode B Cognito JWT with
the verified `sub` as `user_id`. -/
inductive AuthInfo where
  | staticToken
  | cognito (user_id : String)
  deriving DecidableEq, Repr

/-- Request body of the questions route (`QuestionsBody` in
`questions.ts`); `severity` is `Option` because the runtime check
`!severity` guards a missing field. -/
structure QuestionsBody where
  text : String
  choices : Option (List String)
  timeout_sec : Option Nat
  severity : Option Severity
  metadata : Option Metadata
  target_user_id : Option String
  deriving DecidableEq, Repr

/-- HTTP outcome of the questions route. -/
inductive PostQuestionResult where
  | badRequest
  | forbidden
  | conflict
  | created (message_id : String)
  deriving DecidableEq, Repr

/-- The Mode B guard in `questions.ts`: a Cognito caller supplying a
`target_user_id` different from their own id gets 403. -/
def forbiddenTarget (auth : AuthInfo) (target : Option String) : Bool :=
  match auth, target with
  | AuthInfo.cognito uid, some tgt => uid ≠ tgt
  | _, _ => false

/-- `owner_user_id` derivation in `questions.ts`: Mode B uses
`target_user_id ?? caller`, Mode A leaves it undefined. -/
def ownerFromAuth (auth : AuthInfo) (target : Option String) : Option String :=
  match auth with
  | AuthInfo.cognito uid => some (target.getD uid)
  | AuthInfo.staticToken => none

/-- Handler of `POST /v1/sessions/:session_id/questions` in
`questions.ts` (past `requireAuth`): validate `text`/`severity`,
check the Mode B target guard, get-or-create the session in
`WAITING_USER`, return 409 if a pending question exists, otherwise
install the question. `messageId` stands for `generateMessageId()`
and `t` for `new Date()`. -/
def postQuestion (store : Store) (sessionId : String)
    (body : QuestionsBody) (auth : AuthInfo) (messageId : String)
    (t : Nat) : PostQuestionResult × Store :=
  match body.severity with
  | none => (PostQuestionResult.badRequest, store)
  | some sev =>
    if body.text = "" then (PostQuestionResult.badRequest, store)
    else if forbiddenTarget auth body.target_user_id then
      (PostQuestionResult.forbidden, store)
    else
      let owner := ownerFromAuth auth body.target_user_id
      let sessionStore :=
        getOrCreateSession store sessionId SessionStatus.WAITING_USER owner t
      let session := sessionStore.1
      let store1 := sessionStore.2
      if session.status = SessionStatus.WAITING_USER ∧
          session.pending_question.isSome then
        (PostQuestionResult.conflict, store1)
      else
        let question : PendingQuestion :=
          { message_id := messageId
            text := body.text
            choices := body.choices
            timeout_sec := body.timeout_sec
            severity := sev
            metadata := body.metadata
            created_at := t }
        (PostQuestionResult.created messageId,
          updateSession store1 sessionId
            (fun s => setPendingQuestion s question t))

/-! ### Reply retrieval: `GET /v1/sessions/:session_id/replies` -/

/-- The clamp in `replies.ts`:
`Math.min(Math.max(parseInt(wait_sec, 10) || 25, 0), 60)`.
`waitParam` is the result of `parseInt`, with `none` for an absent or
unparseable (`NaN`) parameter; `x || 25` turns both `NaN` and `0`
into the default 25. -/
def effectiveWaitSec (waitParam : Option Int) : Int :=
  let parsed : Int :=
    match waitParam with
    | none => 25
    | some v => if v = 0 then 25 else v
  min (max parsed 0) 60

/-- The state effect of the replies route: `getOrCreateSession(sid,
'IDLE')` (the long-poll loop itself only reads). -/
def pollSession (store : Store) (sessionId : String) (t : Nat) :
    Session × Store :=
  getOrCreateSession store sessionId SessionStatus.IDLE none t

/-- `collectReplies` in `replies.ts`: with a truthy `since`, drop
everything up to and including the first reply whose id matches; if
no reply matches, return the full list. An empty-string `since` is
falsy in JS and skips the filter. -/
def collectReplies (replies : List Reply) (sinceId : Option String) :
    List Reply :=
  match sinceId with
  | none => replies
  | some sid =>
    if sid = "" then replies
    else
      match replies.findIdx? (fun r => r.reply_id = sid) with
      | some idx => replies.drop (idx + 1)
      | none => replies

/-! ### Webhook intake: `POST /webhook/kakao` -/

/-- One Kakao quick-reply button: `{ label: c, action: 'message',
messageText: c }` built in the query branch of `webhook.ts`. -/
structure QuickReply where
  label : String
  messageText : String
  deriving DecidableEq, Repr

/-- Response sent back to Kakao by the webhook handler. -/
inductive WebhookOutcome where
  | cannotIdentify
  | notPermitted
  | notLinked
  | noWaitingSession
  | queryResponse (text : String) (quickReplies : List QuickReply)
  | received (reply_id : String)
  deriving DecidableEq, Repr

/-- Deployment configuration of the webhook route: `DDB_TABLE`
presence selects Mode B, `FIXED_USER_KEY` is the Mode A identity, and
`ddbLookup` models `getUserIdByKakaoUserKey` (a thrown error and a
missing mapping both leave `userId` null and behave identically). -/
structure WebhookConfig where
  isMultiUserMode : Bool
  fixedUserKey : String
  ddbLookup : String → Option String

/-- Result of the user-identification prelude of `webhook.ts`. -/
inductive Resolution where
  | cannotIdentify
  | notPermitted
  | notLinked
  | permitted (userId : Option String)
  deriving DecidableEq, Repr

/-- User identification in `webhook.ts`: missing/empty `userKey` is
unidentifiable; Mode B resolves by DDB lookup with a fallback to
global routing when the key equals a non-empty `FIXED_USER_KEY`;
Mode A admits exactly the fixed key, globally routed. -/
def resolveUser (cfg : WebhookConfig) (userKey : Option String) :
    Resolution :=
  match userKey with
  | none => Resolution.cannotIdentify
  | some key =>
    if key = "" then Resolution.cannotIdentify
    else if cfg.isMultiUserMode then
      match cfg.ddbLookup key with
      | some uid => Resolution.permitted (some uid)
      | none =>
        if cfg.fixedUserKey ≠ "" ∧ key = cfg.fixedUserKey then
          Resolution.permitted none
        else Resolution.notLinked
    else
      if key = cfg.fixedUserKey then Resolution.permitted none
      else Resolution.notPermitted

/-- `QUERY_KEYWORDS` from `webhook.ts`. -/
def QUERY_KEYWORDS : List String := ["pending", "질문", "?"]

/-- Strip leading and trailing whitespace from a character sequence
(JS `String.prototype.trim`). -/
def trimChars (l : List Char) : List Char :=
  ((l.dropWhile Char.isWhitespace).reverse.dropWhile
    Char.isWhitespace).reverse

/-- `userText.trim().toLowerCase()` from `webhook.ts` (also applied to
each candidate choice during classification), modelled on the
character sequence: trim surrounding whitespace, then lower-case each
character (`Char.toLower`; case only matters for the Latin letters
appearing in choices and keywords). -/
def normalize (s : String) : String :=
  String.mk ((trimChars s.data).map Char.toLower)

/-- Session selection in `webhook.ts`: scoped scan when a user id was
resolved, global scan otherwise. -/
def selectSession (store : Store) (userId : Option String) :
    Option Session :=
  match userId with
  | some uid => findMostRecentWaitingSessionForUser store uid
  | none => findMostRecentWaitingSession store

/-- Quick replies of the query branch: present only when the pending
question has a non-empty `choices` list. -/
def mkQuickReplies (question : Option PendingQuestion) :
    List QuickReply :=
  match question with
  | some q =>
    match q.choices with
    | some cs =>
      if cs.length ≠ 0 then cs.map (fun c => QuickReply.mk c c) else []
    | none => []
  | none => []

/-- Query-branch text: the pending question's text, or the
placeholder when none is present. -/
def queryText (question : Option PendingQuestion) : String :=
  match question with
  | some q => q.text
  | none => "(질문 내용 없음)"

/-- Answer-mode classification in `webhook.ts`: CHOICE with the first
original-cased candidate whose trimmed lower-cased form equals the
normalized utterance, when the pending question has a non-empty
choices list; TEXT otherwise. -/
def classifyReply (question : Option PendingQuestion)
    (userText : String) : ReplyType × Option String :=
  match question with
  | some q =>
    match q.choices with
    | some cs =>
      if cs.length ≠ 0 then
        match cs.find? (fun c => normalize c = normalize userText) with
        | some matched => (ReplyType.CHOICE, some matched)
        | none => (ReplyType.TEXT, none)
      else (ReplyType.TEXT, none)
    | none => (ReplyType.TEXT, none)
  | none => (ReplyType.TEXT, none)

/-- The reply object recorded by the answer branch (`replyId` stands
for `generateReplyId()`): `text` is `userText || undefined`. -/
def mkAnswerReply (question : Option PendingQuestion)
    (userText : String) (replyId : String) (t : Nat) : Reply :=
  let classified := classifyReply question userText
  { reply_id := replyId
    type := classified.1
    text := if userText = "" then none else some userText
    choice := classified.2
    created_at := t }

/-- Webhook handling after user identification: query-keyword check,
waiting-session selection, then the read-only query branch or the
answer branch that records a reply via `addReply`. -/
def webhookCore (store : Store) (userId : Option String)
    (userText : String) (replyId : String) (t : Nat) :
    WebhookOutcome × Store :=
  let isQueryMode := normalize userText ∈ QUERY_KEYWORDS
  match selectSession store userId with
  | none => (WebhookOutcome.noWaitingSession, store)
  | some session =>
    if isQueryMode then
      (WebhookOutcome.queryResponse (queryText session.pending_question)
        (mkQuickReplies session.pending_question), store)
    else
      let reply := mkAnswerReply session.pending_question userText replyId t
      (WebhookOutcome.received replyId,
        updateSession store session.session_id (fun s => addReply s reply t))

/-- Full handler of `POST /webhook/kakao`. -/
def webhook (store : Store) (cfg : WebhookConfig)
    (userKey : Option String) (userText : String) (replyId : String)
    (t : Nat) : WebhookOutcome × Store :=
  match resolveUser cfg userKey with
  | Resolution.cannotIdentify => (WebhookOutcome.cannotIdentify, store)
  | Resolution.notPermitted => (WebhookOutcome.notPermitted, store)
  | Resolution.notLinked => (WebhookOutcome.notLinked, store)
  | Resolution.permitted uid => webhookCore store uid userText replyId t

/-! ### Reachability: the public operations as a transition system -/

/-- One public operation on the shared store: a question post, the
store effect of a reply poll, or a webhook delivery. -/
inductive Step : Store → Store → Prop where
  | post (store : Store) (sessionId : String) (body : QuestionsBody)
      (auth : AuthInfo) (messageId : String) (t : Nat) :
      Step store (postQuestion store sessionId body auth messageId t).2
  | poll (store : Store) (sessionId : String) (t : Nat) :
      Step store (pollSession store sessionId t).2
  | hook (store : Store) (cfg : WebhookConfig) (userKey : Option String)
      (userText : String) (replyId : String) (t : Nat) :
      Step store (webhook store cfg userKey userText replyId t).2

/-- Stores reachable from the empty initial table by any sequence of
public operations. -/
inductive Reachable : Store → Prop where
  | init : Reachable []
  | step {σ σ' : Store} : Reachable σ → Step σ σ' → Reachable σ'

/-- Per-session invariant: a pending question is present iff the
session is `WAITING_USER`. -/
def SessionInv (s : Session) : Prop :=
  s.pending_question.isSome ↔ s.status = SessionStatus.WAITING_USER

/-- Store-wide invariant. -/
def StoreInv (store : Store) : Prop := ∀ s ∈ store, SessionInv s

/-- Formalization of "the session currently has a pending question". -/
def sessionHasPending (store : Store) (sessionId : String) : Bool :=
  match getSession store sessionId with
  | some s => s.pending_question.isSome
  | none => false

/-! ### Generic form of the two store scans -/

/-- Common loop body of the two `store.ts` scans, abstracted over the
filter: keep the accumulator unless `p` accepts the session and it is
strictly fresher than the current best. -/
def scanStep (p : Session → Bool) (latest : Option Session)
    (s : Session) : Option Session :=
  if p s then
    match latest with
    | none => some s
    | some l0 => if s.updated_at > l0.updated_at then some s else latest
  else latest

/-- Filter of the global scan. -/
def pGlobal : Session → Bool :=
  fun s => decide (s.status = SessionStatus.WAITING_USER)

/-- Filter of the user-scoped scan. -/
def pUser (userId : String) : Session → Bool :=
  fun s => decide (s.status = SessionStatus.WAITING_USER ∧
    s.owner_user_id = some userId)

/-! ### Concrete fixtures used by the witnesses -/

/-- Request body of the end-to-end example question. -/
def bodyDeploy : QuestionsBody :=
  { text := "Deploy?"
    choices := some ["Yes", "No"]
    timeout_sec := none
    severity := some Severity.WARNING
    metadata := none
    target_user_id := none }

/-- The pending question that `bodyDeploy` installs at time 0 with
message id `m1`. -/
def questDeploy : PendingQuestion :=
  { message_id := "m1"
    text := "Deploy?"
    choices := some ["Yes", "No"]
    timeout_sec := none
    severity := Severity.WARNING
    metadata := none
    created_at := 0 }

/-- Session `s1` after `bodyDeploy` was posted to a fresh store. -/
def sessDeploy : Session :=
  { session_id := "s1"
    status := SessionStatus.WAITING_USER
    pending_question := some questDeploy
    replies := []
    created_at := 0
    updated_at := 0
    owner_user_id := none }

/-- Store holding exactly session `s1` with its pending question. -/
def storeOne : Store :=
  (postQuestion [] "s1" bodyDeploy AuthInfo.staticToken "m1" 0).2

/-- Question body whose first choice normalizes to the query keyword
`pending`. -/
def bodyProceed : QuestionsBody :=
  { text := "Proceed?"
    choices := some ["Pending", "abort"]
    timeout_sec := none
    severity := some Severity.INFO
    metadata := none
    target_user_id := none }

/-- The pending question that `bodyProceed` installs. -/
def questProceed : PendingQuestion :=
  { message_id := "m2"
    text := "Proceed?"
    choices := some ["Pending", "abort"]
    timeout_sec := none
    severity := Severity.INFO
    metadata := none
    created_at := 0 }

/-- Session `s2` after `bodyProceed` was posted to a fresh store. -/
def sessProceed : Session :=
  { session_id := "s2"
    status := SessionStatus.WAITING_USER
    pending_question := some questProceed
    replies := []
    created_at := 0
    updated_at := 0
    owner_user_id := none }

/-- Store holding exactly session `s2`. -/
def storeTwo : Store :=
  (postQuestion [] "s2" bodyProceed AuthInfo.staticToken "m2" 0).2

/-- Mode A deployment: no DDB table, one fixed Kakao user key. -/
def cfgA : WebhookConfig :=
  { isMultiUserMode := false
    fixedUserKey := "fixed-key"
    ddbLookup := fun _ => none }

/-- Waiting session owned by `userA`, older timestamp. -/
def sessUserA : Session :=
  { session_id := "sa"
    status := SessionStatus.WAITING_USER
    pending_question := some questDeploy
    replies := []
    created_at := 0
    updated_at := 5
    owner_user_id := some "userA" }

/-- Waiting session owned by `userB`, later timestamp. -/
def sessUserB : Session :=
  { session_id := "sb"
    status := SessionStatus.WAITING_USER
    pending_question := some questProceed
    replies := []
    created_at := 0
    updated_at := 10
    owner_user_id := some "userB" }

/-- Older waiting session also owned by `userA`. -/
def sessUserA2 : Session :=
  { session_id := "sa2"
    status := SessionStatus.WAITING_USER
    pending_question := some questDeploy
    replies := []
    created_at := 0
    updated_at := 3
    owner_user_id := some "userA" }

/-- Two-user store for the scoped-selection witness. -/
def demoStore : Store := [sessUserB, sessUserA2, sessUserA]

/-- Fixture replies for the since-filter witness. -/
def replyA : Reply :=
  { reply_id := "ra", type := ReplyType.TEXT, text := some "one"
    choice := none, created_at := 1 }

/-- Second fixture reply. -/
def replyB : Reply :=
  { reply_id := "rb", type := ReplyType.TEXT, text := some "two"
    choice := none, created_at := 2 }

/-- Third fixture reply. -/
def replyC : Reply :=
  { reply_id := "rc", type := ReplyType.TEXT, text := some "three"
    choice := none, created_at := 3 }

/-! ### Invariant preservation -/

theorem sessionInv_setPendingQuestion (s : Session) (q : PendingQuestion)
    (t : Nat) : SessionInv (setPendingQuestion s q t) := by
  simp [SessionInv, setPendingQuestion]

theorem sessionInv_addReply (s : Session) (r : Reply) (t : Nat) :
    SessionInv (addReply s r t) := by
  simp [SessionInv, addReply]

theorem storeInv_updateSession (store : Store) (sessionId : String)
    (f : Session → Session)
    (h : ∀ s ∈ store, s.session_id ≠ sessionId → SessionInv s)
    (hf : ∀ s, SessionInv (f s)) :
    StoreInv (updateSession store sessionId f) := by
  intro s hs
  simp only [updateSession, List.mem_map] at hs
  obtain ⟨a, ha, rfl⟩ := hs
  by_cases hid : a.session_id = sessionId
  · rw [if_pos hid]
    exact hf a
  · rw [if_neg hid]
    exact h a ha hid

theorem mem_getOrCreateSession_snd (store : Store) (sessionId : String)
    (st : SessionStatus) (owner : Option String) (t : Nat) (s : Session)
    (hs : s ∈ (getOrCreateSession store sessionId st owner t).2) :
    s ∈ store ∨ (getSession store sessionId = none ∧
      s = { session_id := sessionId, status := st, pending_question := none,
            replies := [], created_at := t, updated_at := t,
            owner_user_id := owner }) := by
  unfold getOrCreateSession at hs
  cases hfind : getSession store sessionId with
  | some s0 =>
    rw [hfind] at hs
    exact Or.inl hs
  | none =>
    rw [hfind] at hs
    rcases List.mem_append.mp hs with h | h
    · exact Or.inl h
    · simp only [List.mem_singleton] at h
      exact Or.inr ⟨rfl, h⟩

theorem storeInv_postQuestion (store : Store) (sessionId : String)
    (body : QuestionsBody) (auth : AuthInfo) (messageId : String) (t : Nat)
    (hinv : StoreInv store) :
    StoreInv (postQuestion store sessionId body auth messageId t).2 := by
  unfold postQuestion
  cases hsev : body.severity with
  | none => exact hinv
  | some sev =>
    dsimp only
    by_cases htext : body.text = ""
    · rw [if_pos htext]
      exact hinv
    · rw [if_neg htext]
      by_cases hfb : forbiddenTarget auth body.target_user_id = true
      · rw [if_pos hfb]
        exact hinv
      · rw [if_neg hfb]
        cases hfind : getSession store sessionId with
        | some s =>
          simp only [getOrCreateSession, hfind]
          by_cases hc : s.status = SessionStatus.WAITING_USER ∧
              s.pending_question.isSome
          · rw [if_pos hc]
            exact hinv
          · rw [if_neg hc]
            refine storeInv_updateSession store sessionId _ ?_ ?_
            · exact fun a ha _ => hinv a ha
            · exact fun a => sessionInv_setPendingQuestion a _ t
        | none =>
          simp only [getOrCreateSession, hfind]
          rw [if_neg (by simp)]
          refine storeInv_updateSession _ sessionId _ ?_ ?_
          · intro a ha hne
            rcases List.mem_append.mp ha with h | h
            · exact hinv a h
            · simp only [List.mem_singleton] at h
              subst h
              exact absurd rfl hne
          · exact fun a => sessionInv_setPendingQuestion a _ t

theorem storeInv_pollSession (store : Store) (sessionId : String) (t : Nat)
    (hinv : StoreInv store) :
    StoreInv (pollSession store sessionId t).2 := by
  intro s hs
  rcases mem_getOrCreateSession_snd store sessionId SessionStatus.IDLE none
      t s hs with h | ⟨_, rfl⟩
  · exact hinv s h
  · simp [SessionInv]

theorem storeInv_webhookCore (store : Store) (userId : Option String)
    (userText replyId : String) (t : Nat) (hinv : StoreInv store) :
    StoreInv (webhookCore store userId userText replyId t).2 := by
  unfold webhookCore
  cases hsel : selectSession store userId with
  | none => exact hinv
  | some session =>
    dsimp only
    by_cases hq : normalize userText ∈ QUERY_KEYWORDS
    · rw [if_pos hq]
      exact hinv
    · rw [if_neg hq]
      refine storeInv_updateSession store session.session_id _ ?_ ?_
      · exact fun a ha _ => hinv a ha
      · exact fun a => sessionInv_addReply a _ t

theorem storeInv_webhook (store : Store) (cfg : WebhookConfig)
    (userKey : Option String) (userText replyId : String) (t : Nat)
    (hinv : StoreInv store) :
    StoreInv (webhook store cfg userKey userText replyId t).2 := by
  unfold webhook
  cases resolveUser cfg userKey with
  | cannotIdentify => exact hinv
  | notPermitted => exact hinv
  | notLinked => exact hinv
  | permitted uid => exact storeInv_webhookCore store uid userText replyId t hinv

theorem reachable_storeInv {store : Store} (hr : Reachable store) :
    StoreInv store := by
  induction hr with
  | init => intro s hs; cases hs
  | step _ hstep ih =>
    cases hstep with
    | post sessionId body auth messageId t =>
      exact storeInv_postQuestion _ sessionId body auth messageId t ih
    | poll sessionId t =>
      exact storeInv_pollSession _ sessionId t ih
    | hook cfg userKey userText replyId t =>
      exact storeInv_webhook _ cfg userKey userText replyId t ih

/-! ### Properties of the most-recent-waiting scans -/

theorem waitingStep_eq_scanStep : waitingStep = scanStep pGlobal := by
  funext latest s
  by_cases h1 : s.status = SessionStatus.WAITING_USER
  · simp [waitingStep, scanStep, pGlobal, h1]
  · simp [waitingStep, scanStep, pGlobal, h1]

theorem waitingStepForUser_eq_scanStep (userId : String) :
    waitingStepForUser userId = scanStep (pUser userId) := by
  funext latest s
  by_cases h1 : s.status = SessionStatus.WAITING_USER
  · by_cases h2 : s.owner_user_id = some userId
    · simp [waitingStepForUser, scanStep, pUser, h1, h2]
    · simp [waitingStepForUser, scanStep, pUser, h1, h2]
  · simp [waitingStepForUser, scanStep, pUser, h1]

theorem scanStep_sound (p : Session → Bool) (acc : Option Session)
    (s r : Session) (h : scanStep p acc s = some r) :
    (p r = true ∧ r = s) ∨ acc = some r := by
  unfold scanStep at h
  by_cases hp : p s = true
  · rw [if_pos hp] at h
    cases acc with
    | none =>
      cases h
      exact Or.inl ⟨hp, rfl⟩
    | some l0 =>
      dsimp only at h
      by_cases hgt : s.updated_at > l0.updated_at
      · rw [if_pos hgt] at h
        cases h
        exact Or.inl ⟨hp, rfl⟩
      · rw [if_neg hgt] at h
        exact Or.inr h
  · rw [if_neg hp] at h
    exact Or.inr h

theorem scanLoop_sound (p : Session → Bool) (l : List Session)
    (acc : Option Session) (r : Session)
    (h : l.foldl (scanStep p) acc = some r) :
    (p r = true ∧ r ∈ l) ∨ acc = some r := by
  induction l generalizing acc with
  | nil => exact Or.inr h
  | cons s l ih =>
    rw [List.foldl_cons] at h
    rcases ih (scanStep p acc s) h with ⟨hr, hmem⟩ | hacc
    · exact Or.inl ⟨hr, List.mem_cons_of_mem s hmem⟩
    · rcases scanStep_sound p acc s r hacc with ⟨hr, rfl⟩ | h2
      · exact Or.inl ⟨hr, List.mem_cons_self r l⟩
      · exact Or.inr h2

theorem scanStep_ge_acc (p : Session → Bool) (s a : Session) :
    ∃ r, scanStep p (some a) s = some r ∧ a.updated_at ≤ r.updated_at := by
  unfold scanStep
  by_cases hp : p s = true
  · rw [if_pos hp]
    dsimp only
    by_cases hgt : s.updated_at > a.updated_at
    · exact ⟨s, by rw [if_pos hgt], le_of_lt hgt⟩
    · exact ⟨a, by rw [if_neg hgt], le_refl _⟩
  · exact ⟨a, by rw [if_neg hp], le_refl _⟩

theorem scanStep_ge_self (p : Session → Bool) (acc : Option Session)
    (s : Session) (hp : p s = true) :
    ∃ r, scanStep p acc s = some r ∧ s.updated_at ≤ r.updated_at := by
  unfold scanStep
  cases acc with
  | none => exact ⟨s, by rw [if_pos hp], le_refl _⟩
  | some a =>
    by_cases hgt : s.updated_at > a.updated_at
    · refine ⟨s, ?_, le_refl _⟩
      rw [if_pos hp]
      dsimp only
      exact if_pos hgt
    · refine ⟨a, ?_, le_of_not_lt hgt⟩
      rw [if_pos hp]
      dsimp only
      exact if_neg hgt

theorem scanLoop_ge_acc (p : Session → Bool) (l : List Session)
    (a : Session) :
    ∃ r, l.foldl (scanStep p) (some a) = some r ∧
      a.updated_at ≤ r.updated_at := by
  induction l generalizing a with
  | nil => exact ⟨a, rfl, le_refl _⟩
  | cons s l ih =>
    obtain ⟨m, hm, ham⟩ := scanStep_ge_acc p s a
    rw [List.foldl_cons, hm]
    obtain ⟨r, hr, hmr⟩ := ih m
    exact ⟨r, hr, le_trans ham hmr⟩

theorem scanLoop_ge_mem (p : Session → Bool) (l : List Session)
    (acc : Option Session) (s : Session) (hmem : s ∈ l)
    (hp : p s = true) :
    ∃ r, l.foldl (scanStep p) acc = some r ∧
      s.updated_at ≤ r.updated_at := by
  induction l generalizing acc with
  | nil => cases hmem
  | cons hd l ih =>
    rw [List.foldl_cons]
    rcases List.mem_cons.mp hmem with rfl | hmem2
    · obtain ⟨m, hm, hsm⟩ := scanStep_ge_self p acc s hp
      rw [hm]
      obtain ⟨r, hr, hmr⟩ := scanLoop_ge_acc p l m
      exact ⟨r, hr, le_trans hsm hmr⟩
    · exact ih (scanStep p acc hd) hmem2

theorem scanLoop_none (p : Session → Bool) (l : List Session)
    (h : ∀ s ∈ l, ¬ p s = true) :
    l.foldl (scanStep p) none = none := by
  induction l with
  | nil => rfl
  | cons s l ih =>
    rw [List.foldl_cons]
    have hstep : scanStep p none s = none := by
      unfold scanStep
      rw [if_neg (h s (List.mem_cons_self s l))]
    rw [hstep]
    exact ih (fun a ha => h a (List.mem_cons_of_mem s ha))

theorem selectSession_waiting (store : Store) (userId : Option String)
    (s : Session) (h : selectSession store userId = some s) :
    s.status = SessionStatus.WAITING_USER ∧ s ∈ store := by
  cases userId with
  | none =>
    simp only [selectSession, findMostRecentWaitingSession] at h
    rw [waitingStep_eq_scanStep] at h
    rcases scanLoop_sound pGlobal store none s h with ⟨hp, hmem⟩ | habs
    · exact ⟨of_decide_eq_true hp, hmem⟩
    · cases habs
  | some uid =>
    simp only [selectSession, findMostRecentWaitingSessionForUser] at h
    rw [waitingStepForUser_eq_scanStep] at h
    rcases scanLoop_sound (pUser uid) store none s h with ⟨hp, hmem⟩ | habs
    · exact ⟨(of_decide_eq_true hp).1, hmem⟩
    · cases habs

/-! ### Lookup helper lemmas -/

theorem getSession_updateSession (store : Store) (sessionId : String)
    (f : Session → Session) (hf : ∀ s, (f s).session_id = s.session_id) :
    getSession (updateSession store sessionId f) sessionId =
      Option.map f (getSession store sessionId) := by
  induction store with
  | nil => rfl
  | cons hd tl ih =>
    unfold getSession updateSession at *
    rw [List.map_cons]
    by_cases hid : hd.session_id = sessionId
    · rw [if_pos hid]
      rw [List.find?_cons_of_pos tl (by simpa using hid)]
      rw [List.find?_cons_of_pos _ (by simp [hf, hid])]
      rfl
    · rw [if_neg hid]
      rw [List.find?_cons_of_neg tl (by simpa using hid)]
      rw [List.find?_cons_of_neg _ (by simpa using hid)]
      exact ih

theorem getSession_append_single (store : Store) (s : Session)
    (sessionId : String) (h : getSession store sessionId = none) :
    getSession (store ++ [s]) sessionId =
      if s.session_id = sessionId then some s else none := by
  unfold getSession at *
  rw [List.find?_append, h]
  by_cases hid : s.session_id = sessionId
  · rw [if_pos hid]
    simp [List.find?_cons_of_pos, hid]
  · rw [if_neg hid]
    simp [List.find?_cons_of_neg, hid]

/-! ### Claim theorems -/

/-- C1: for every reachable store in which the addressed session has a
pending question, a well-formed question post (non-empty `text`,
present `severity`, passing the Mode B target guard) returns the 409
conflict result and leaves the whole store — in particular the
existing pending question with its `message_id`, the session status,
the replies and `updated_at` — unchanged. -/
theorem post_question_conflict_preserves_state (store : Store)
    (sessionId : String) (body : QuestionsBody) (auth : AuthInfo)
    (messageId : String) (t : Nat)
    (hr : Reachable store)
    (hp : sessionHasPending store sessionId = true)
    (htext : body.text ≠ "")
    (hsev : body.severity.isSome = true)
    (hfb : forbiddenTarget auth body.target_user_id = false) :
    postQuestion store sessionId body auth messageId t =
      (PostQuestionResult.conflict, store) := by
  unfold sessionHasPending at hp
  cases hfind : getSession store sessionId with
  | none =>
    rw [hfind] at hp
    cases hp
  | some s =>
    rw [hfind] at hp
    have hmem : s ∈ store := List.mem_of_find?_eq_some hfind
    have hwait : s.status = SessionStatus.WAITING_USER :=
      (reachable_storeInv hr s hmem).mp hp
    obtain ⟨sev, hsev2⟩ := Option.isSome_iff_exists.mp hsev
    unfold postQuestion
    rw [hsev2]
    dsimp only
    rw [if_neg htext]
    rw [if_neg (by simp [hfb])]
    simp only [getOrCreateSession, hfind]
    rw [if_pos ⟨hwait, hp⟩]

/-- Witness for C1: a second post on session `s1`, whose question
`m1` is still pending, is rejected with conflict and the store is
untouched. -/
theorem post_question_conflict_preserves_state_witness :
    postQuestion storeOne "s1" bodyDeploy AuthInfo.staticToken "m2" 1 =
      (PostQuestionResult.conflict, storeOne) :=
  post_question_conflict_preserves_state storeOne "s1" bodyDeploy
    AuthInfo.staticToken "m2" 1
    (Reachable.step Reachable.init
      (Step.post [] "s1" bodyDeploy AuthInfo.staticToken "m1" 0))
    (by decide) (by decide) (by decide) (by decide)

/-- C2: `addReply` unconditionally appends the reply at the end of
the replies list, clears `pending_question`, sets `RESOLVED` and
refreshes `updated_at` — for every session, including one that is not
`WAITING_USER` and has no pending question. -/
theorem add_reply_resolves_unconditionally (s : Session) (r : Reply)
    (t : Nat) :
    (addReply s r t).replies = s.replies ++ [r] ∧
    (addReply s r t).pending_question = none ∧
    (addReply s r t).status = SessionStatus.RESOLVED ∧
    (addReply s r t).updated_at = t :=
  ⟨rfl, rfl, rfl, rfl⟩

/-- C4: in every reachable store, each session has a pending question
exactly when its status is `WAITING_USER`, and it holds at most one
pending question (the `pending_question` slot is a single option). -/
theorem pending_iff_waiting_invariant (store : Store)
    (hr : Reachable store) :
    ∀ s ∈ store,
      (s.pending_question ≠ none ↔
        s.status = SessionStatus.WAITING_USER) ∧
      (∀ q1 q2, s.pending_question = some q1 →
        s.pending_question = some q2 → q1 = q2) := by
  intro s hs
  have hinv := reachable_storeInv hr s hs
  refine ⟨?_, ?_⟩
  · rw [Option.ne_none_iff_isSome]
    exact hinv
  · intro q1 q2 h1 h2
    rw [h1] at h2
    exact Option.some_inj.mp h2

/-- Witness for C4: the store reached by posting one question
contains session `s1`, which is `WAITING_USER` with its pending
question present. -/
theorem pending_iff_waiting_invariant_witness :
    sessDeploy ∈ storeOne ∧
    (sessDeploy.pending_question ≠ none ↔
      sessDeploy.status = SessionStatus.WAITING_USER) :=
  ⟨by decide,
    (pending_iff_waiting_invariant storeOne
      (Reachable.step Reachable.init
        (Step.post [] "s1" bodyDeploy AuthInfo.staticToken "m1" 0))
      sessDeploy (by decide)).1⟩

/-- C3: in the webhook's answer mode, when the pending question has a
choices list and some choice, trimmed and case-folded, equals the
normalized utterance, the recorded reply is a `CHOICE` whose `choice`
field is a matching candidate in its original casing; when no choice
matches, or the question has no choices list, the recorded reply is a
`TEXT` with no choice. -/
theorem answer_reply_classification (q : PendingQuestion)
    (cs : List String) (u replyId : String) (t : Nat) :
    (q.choices = some cs →
      (∀ c ∈ cs, normalize u = normalize c →
        ∃ c2, c2 ∈ cs ∧ normalize c2 = normalize u ∧
          (mkAnswerReply (some q) u replyId t).type = ReplyType.CHOICE ∧
          (mkAnswerReply (some q) u replyId t).choice = some c2) ∧
      ((∀ c ∈ cs, normalize c ≠ normalize u) →
        (mkAnswerReply (some q) u replyId t).type = ReplyType.TEXT ∧
        (mkAnswerReply (some q) u replyId t).choice = none)) ∧
    (q.choices = none →
      (mkAnswerReply (some q) u replyId t).type = ReplyType.TEXT ∧
      (mkAnswerReply (some q) u replyId t).choice = none) := by
  refine ⟨fun hcs => ⟨?_, ?_⟩, fun hnone => ?_⟩
  · intro c hc hnorm
    have hlen : cs.length ≠ 0 := by
      cases cs with
      | nil => cases hc
      | cons a l => simp
    have hsome : (cs.find? (fun c2 => normalize c2 = normalize u)).isSome := by
      rw [List.find?_isSome]
      exact ⟨c, hc, by simpa using hnorm.symm⟩
    obtain ⟨c2, hc2⟩ := Option.isSome_iff_exists.mp hsome
    refine ⟨c2, List.mem_of_find?_eq_some hc2,
      by simpa using List.find?_some hc2, ?_, ?_⟩
    · show (classifyReply (some q) u).1 = ReplyType.CHOICE
      unfold classifyReply
      dsimp only
      rw [hcs]
      dsimp only
      rw [if_pos hlen, hc2]
    · show (classifyReply (some q) u).2 = some c2
      unfold classifyReply
      dsimp only
      rw [hcs]
      dsimp only
      rw [if_pos hlen, hc2]
  · intro hnomatch
    have hfind : cs.find? (fun c2 => normalize c2 = normalize u) = none :=
      List.find?_eq_none.mpr (fun c hc => by simpa using hnomatch c hc)
    constructor
    · show (classifyReply (some q) u).1 = ReplyType.TEXT
      unfold classifyReply
      dsimp only
      rw [hcs]
      dsimp only
      by_cases hlen : cs.length ≠ 0
      · rw [if_pos hlen, hfind]
      · rw [if_neg hlen]
    · show (classifyReply (some q) u).2 = none
      unfold classifyReply
      dsimp only
      rw [hcs]
      dsimp only
      by_cases hlen : cs.length ≠ 0
      · rw [if_pos hlen, hfind]
      · rw [if_neg hlen]
  · constructor
    · show (classifyReply (some q) u).1 = ReplyType.TEXT
      unfold classifyReply
      dsimp only
      rw [hnone]
    · show (classifyReply (some q) u).2 = none
      unfold classifyReply
      dsimp only
      rw [hnone]

/-- Witness for C3: with choices `["Yes", "No"]`, the utterance
`"YES"` is recorded as `CHOICE` with choice `"Yes"`, and `"yess"` as
`TEXT` with no choice. -/
theorem answer_reply_classification_witness :
    (∃ c2, c2 ∈ ["Yes", "No"] ∧ normalize c2 = normalize "YES" ∧
      (mkAnswerReply (some questDeploy) "YES" "r1" 3).type =
        ReplyType.CHOICE ∧
      (mkAnswerReply (some questDeploy) "YES" "r1" 3).choice =
        some c2) ∧
    (mkAnswerReply (some questDeploy) "yess" "r2" 3).type =
      ReplyType.TEXT ∧
    (mkAnswerReply (some questDeploy) "yess" "r2" 3).choice = none :=
  ⟨((answer_reply_classification questDeploy ["Yes", "No"] "YES" "r1"
      3).1 rfl).1 "Yes" (by decide) (by decide),
   ((answer_reply_classification questDeploy ["Yes", "No"] "yess" "r2"
      3).1 rfl).2 (by decide)⟩

/-- C5: a question post on a never-seen session id creates the
session and leaves it `WAITING_USER`; a reply poll on a never-seen
session id creates it `IDLE` with empty replies; and
`getOrCreateSession` on an existing session returns it unchanged,
ignoring the supplied initial status and owner. -/
theorem implicit_session_creation (store : Store) (sessionId : String)
    (body : QuestionsBody) (auth : AuthInfo) (messageId : String)
    (t t2 : Nat) (st : SessionStatus) (owner : Option String)
    (s : Session) :
    (getSession store sessionId = none → body.text ≠ "" →
      body.severity.isSome = true →
      forbiddenTarget auth body.target_user_id = false →
      ∃ s2,
        getSession (postQuestion store sessionId body auth messageId
          t).2 sessionId = some s2 ∧
        s2.status = SessionStatus.WAITING_USER) ∧
    (getSession store sessionId = none →
      (pollSession store sessionId t).1.status = SessionStatus.IDLE ∧
      (pollSession store sessionId t).1.replies = [] ∧
      getSession (pollSession store sessionId t).2 sessionId =
        some (pollSession store sessionId t).1) ∧
    (getSession store sessionId = some s →
      getOrCreateSession store sessionId st owner t2 = (s, store)) := by
  refine ⟨?_, ?_, ?_⟩
  · intro hnone htext hsev hfb
    obtain ⟨sev, hsev2⟩ := Option.isSome_iff_exists.mp hsev
    unfold postQuestion
    rw [hsev2]
    dsimp only
    rw [if_neg htext]
    rw [if_neg (by simp [hfb])]
    simp only [getOrCreateSession, hnone]
    rw [if_neg (by simp)]
    dsimp only
    rw [getSession_updateSession]
    · rw [getSession_append_single store _ sessionId hnone]
      rw [if_pos rfl]
      exact ⟨_, rfl, rfl⟩
    · exact fun a => rfl
  · intro hnone
    unfold pollSession getOrCreateSession
    rw [hnone]
    dsimp only
    refine ⟨rfl, rfl, ?_⟩
    rw [getSession_append_single store _ sessionId hnone]
    rw [if_pos rfl]
  · intro hsome
    unfold getOrCreateSession
    rw [hsome]

/-- Witness for C5: posting to fresh `s9` yields a `WAITING_USER`
session, polling fresh `s8` yields an `IDLE` session with no replies,
and `getOrCreateSession` on existing `s1` ignores the supplied `IDLE`
status and owner tag. -/
theorem implicit_session_creation_witness :
    (∃ s2,
      getSession (postQuestion [] "s9" bodyDeploy AuthInfo.staticToken
        "m9" 4).2 "s9" = some s2 ∧
      s2.status = SessionStatus.WAITING_USER) ∧
    ((pollSession [] "s8" 4).1.status = SessionStatus.IDLE ∧
      (pollSession [] "s8" 4).1.replies = [] ∧
      getSession (pollSession [] "s8" 4).2 "s8" =
        some (pollSession [] "s8" 4).1) ∧
    getOrCreateSession storeOne "s1" SessionStatus.IDLE
      (some "other-owner") 9 = (sessDeploy, storeOne) :=
  ⟨(implicit_session_creation [] "s9" bodyDeploy AuthInfo.staticToken
      "m9" 4 0 SessionStatus.IDLE none sessDeploy).1 rfl (by decide)
      (by decide) (by decide),
   (implicit_session_creation [] "s8" bodyDeploy AuthInfo.staticToken
      "m9" 4 0 SessionStatus.IDLE none sessDeploy).2.1 rfl,
   (implicit_session_creation storeOne "s1" bodyDeploy
      AuthInfo.staticToken "m9" 0 9 SessionStatus.IDLE
      (some "other-owner") sessDeploy).2.2 (by rfl)⟩

/-- C6: the user-scoped scan returns only a `WAITING_USER` session
owned by the given user, with the maximum `updated_at` among that
user's waiting sessions; it returns `none` when the user has no
waiting session, regardless of other users' sessions. -/
theorem scoped_selection_correct (store : Store) (userId : String) :
    (∀ s, findMostRecentWaitingSessionForUser store userId = some s →
      s ∈ store ∧ s.status = SessionStatus.WAITING_USER ∧
      s.owner_user_id = some userId ∧
      ∀ s2 ∈ store, s2.status = SessionStatus.WAITING_USER →
        s2.owner_user_id = some userId →
        s2.updated_at ≤ s.updated_at) ∧
    ((∀ s ∈ store, ¬ (s.status = SessionStatus.WAITING_USER ∧
        s.owner_user_id = some userId)) →
      findMostRecentWaitingSessionForUser store userId = none) := by
  constructor
  · intro s hs
    rw [findMostRecentWaitingSessionForUser,
      waitingStepForUser_eq_scanStep] at hs
    rcases scanLoop_sound (pUser userId) store none s hs with
      ⟨hp, hmem⟩ | habs
    · have hp2 := of_decide_eq_true hp
      refine ⟨hmem, hp2.1, hp2.2, ?_⟩
      intro s2 hmem2 hst2 how2
      obtain ⟨r, hr, hle⟩ := scanLoop_ge_mem (pUser userId) store none
        s2 hmem2 (decide_eq_true ⟨hst2, how2⟩)
      rw [hs] at hr
      cases hr
      exact hle
    · cases habs
  · intro hnone
    rw [findMostRecentWaitingSessionForUser,
      waitingStepForUser_eq_scanStep]
    refine scanLoop_none (pUser userId) store ?_
    intro s hs hp
    exact hnone s hs (of_decide_eq_true hp)

/-- Witness for C6: with waiting sessions for `userA` (updated 3 and
5) and `userB` (updated 10), the scan for `userA` picks `userA`'s
freshest session `sa` despite `userB`'s later timestamp, and the scan
for `userC` finds nothing. -/
theorem scoped_selection_correct_witness :
    sessUserA ∈ demoStore ∧
    sessUserA.status = SessionStatus.WAITING_USER ∧
    sessUserA.owner_user_id = some "userA" ∧
    sessUserA2.updated_at ≤ sessUserA.updated_at ∧
    findMostRecentWaitingSessionForUser demoStore "userC" = none :=
  ⟨((scoped_selection_correct demoStore "userA").1 sessUserA rfl).1,
   ((scoped_selection_correct demoStore "userA").1 sessUserA rfl).2.1,
   ((scoped_selection_correct demoStore "userA").1 sessUserA
      rfl).2.2.1,
   ((scoped_selection_correct demoStore "userA").1 sessUserA
      rfl).2.2.2 sessUserA2 (by decide) (by decide) (by decide),
   (scoped_selection_correct demoStore "userC").2 (by decide)⟩

/-- C7: with replies `[r1, r2, r3]`, polling with `since` equal to
`r1`'s id (any non-empty id) returns exactly `[r2, r3]`; polling with
a `since` id that occurs in none of the replies returns the full
list. -/
theorem since_filter_correct (r1 r2 r3 : Reply) (since : String) :
    (r1.reply_id ≠ "" →
      collectReplies [r1, r2, r3] (some r1.reply_id) = [r2, r3]) ∧
    ((∀ r ∈ [r1, r2, r3], r.reply_id ≠ since) →
      collectReplies [r1, r2, r3] (some since) = [r1, r2, r3]) := by
  constructor
  · intro hne
    unfold collectReplies
    dsimp only
    rw [if_neg hne]
    rw [List.findIdx?_cons]
    rw [if_pos (by simp)]
    rfl
  · intro hnotin
    unfold collectReplies
    dsimp only
    by_cases hemp : since = ""
    · rw [if_pos hemp]
    · rw [if_neg hemp]
      have hfind : [r1, r2, r3].findIdx?
          (fun r => r.reply_id = since) = none := by
        rw [List.findIdx?_eq_none_iff]
        intro r hr
        simpa using hnotin r hr
      rw [hfind]

/-- Witness for C7: with ids `ra`, `rb`, `rc`, polling since `ra`
returns the last two replies, and polling since the stale id `zz`
returns all three. -/
theorem since_filter_correct_witness :
    collectReplies [replyA, replyB, replyC] (some "ra") =
      [replyB, replyC] ∧
    collectReplies [replyA, replyB, replyC] (some "zz") =
      [replyA, replyB, replyC] :=
  ⟨(since_filter_correct replyA replyB replyC "zz").1 (by decide),
   (since_filter_correct replyA replyB replyC "zz").2 (by decide)⟩

/-- C8 counterexample: a supplied `wait_sec` of `0` is swallowed by
the `|| 25` default fallback, so the effective wait is 25 seconds,
not the claimed `min (max 0 0) 60 = 0`. -/
theorem wait_clamp_zero_counterexample :
    effectiveWaitSec (some 0) = 25 ∧
    effectiveWaitSec (some 0) ≠ min (max (0 : Int) 0) 60 := by
  exact ⟨rfl, by decide⟩

/-- C8 amended: the wait duration defaults to 25 seconds when the
parameter is absent (or unparseable) and also when the supplied value
is exactly `0` (the `|| 25` fallback treats `0` as absent); every
other supplied value `v` is clamped to `min (max v 0) 60`. -/
theorem wait_clamp_amended (v : Int) (hv : v ≠ 0) :
    effectiveWaitSec none = 25 ∧
    effectiveWaitSec (some 0) = 25 ∧
    effectiveWaitSec (some v) = min (max v 0) 60 := by
  refine ⟨rfl, rfl, ?_⟩
  unfold effectiveWaitSec
  dsimp only
  rw [if_neg hv]

/-- Witness for C8: a supplied value of 70 is clamped to the
60-second cap. -/
theorem wait_clamp_amended_witness :
    (effectiveWaitSec none = 25 ∧
      effectiveWaitSec (some 0) = 25 ∧
      effectiveWaitSec (some 70) = min (max (70 : Int) 0) 60) ∧
    effectiveWaitSec (some 70) = 60 :=
  ⟨wait_clamp_amended 70 (by decide), by decide⟩

/-- Shared helper: once the user is permitted and the utterance is a
query keyword, the webhook takes the read-only query branch: it
renders the selected session's pending question and returns the
store unchanged. -/
theorem webhook_query_branch (store : Store) (cfg : WebhookConfig)
    (userKey : Option String) (userText replyId : String) (t : Nat)
    (userId : Option String) (s : Session)
    (hperm : resolveUser cfg userKey = Resolution.permitted userId)
    (hkw : normalize userText ∈ QUERY_KEYWORDS)
    (hsel : selectSession store userId = some s) :
    webhook store cfg userKey userText replyId t =
      (WebhookOutcome.queryResponse (queryText s.pending_question)
        (mkQuickReplies s.pending_question), store) := by
  unfold webhook
  rw [hperm]
  dsimp only
  unfold webhookCore
  rw [hsel]
  dsimp only
  rw [if_pos hkw]

/-- C9: an inbound message from a permitted user whose normalized
utterance is one of the query keywords, while a waiting session
exists, is answered with the pending question's text and quick-reply
options, and the store is returned unchanged — so repeating the query
any number of times leaves every session's status, pending question,
replies and `updated_at` intact. -/
theorem query_mode_is_read_only (store : Store) (cfg : WebhookConfig)
    (userKey : Option String) (userText replyId : String) (t : Nat)
    (userId : Option String) (s : Session)
    (hperm : resolveUser cfg userKey = Resolution.permitted userId)
    (hkw : normalize userText ∈ QUERY_KEYWORDS)
    (hsel : selectSession store userId = some s) :
    webhook store cfg userKey userText replyId t =
      (WebhookOutcome.queryResponse (queryText s.pending_question)
        (mkQuickReplies s.pending_question), store) :=
  webhook_query_branch store cfg userKey userText replyId t userId s
    hperm hkw hsel

/-- Witness for C9: the query `pending` against session `s1` returns
the question text `Deploy?` with its two quick replies and leaves the
store untouched. -/
theorem query_mode_is_read_only_witness :
    webhook storeOne cfgA (some "fixed-key") "pending" "r9" 5 =
      (WebhookOutcome.queryResponse "Deploy?"
        [QuickReply.mk "Yes" "Yes", QuickReply.mk "No" "No"],
        storeOne) :=
  query_mode_is_read_only storeOne cfgA (some "fixed-key") "pending"
    "r9" 5 none sessDeploy rfl (by decide) rfl

/-- C10: query keywords shadow answer choices — when a waiting
session's pending question offers a choice whose normalized form is a
query keyword, an inbound utterance of that choice from a permitted
user takes the read-only query branch: the store (hence the session's
`WAITING_USER` status and its replies) is unchanged and no `CHOICE`
reply is recorded. -/
theorem query_keyword_shadows_choice (store : Store)
    (cfg : WebhookConfig) (userKey : Option String) (replyId : String)
    (t : Nat) (userId : Option String) (s : Session)
    (q : PendingQuestion) (cs : List String) (c : String)
    (hperm : resolveUser cfg userKey = Resolution.permitted userId)
    (hsel : selectSession store userId = some s)
    (hq : s.pending_question = some q)
    (_hcs : q.choices = some cs)
    (_hc : c ∈ cs)
    (hkw : normalize c ∈ QUERY_KEYWORDS) :
    webhook store cfg userKey c replyId t =
      (WebhookOutcome.queryResponse (queryText (some q))
        (mkQuickReplies (some q)), store) ∧
    s.status = SessionStatus.WAITING_USER := by
  constructor
  · have h := webhook_query_branch store cfg userKey c replyId t
      userId s hperm hkw hsel
    rw [hq] at h
    exact h
  · exact (selectSession_waiting store userId s hsel).1

/-- Witness for C10: with pending choices `["Pending", "abort"]`, the
utterance `Pending` (which normalizes to the keyword `pending`) is
answered as a query, session `s2` stays `WAITING_USER` and the store
is unchanged. -/
theorem query_keyword_shadows_choice_witness :
    webhook storeTwo cfgA (some "fixed-key") "Pending" "r5" 7 =
      (WebhookOutcome.queryResponse "Proceed?"
        [QuickReply.mk "Pending" "Pending",
          QuickReply.mk "abort" "abort"], storeTwo) ∧
    sessProceed.status = SessionStatus.WAITING_USER :=
  query_keyword_shadows_choice storeTwo cfgA (some "fixed-key") "r5" 7
    none sessProceed questProceed ["Pending", "abort"] "Pending"
    rfl rfl rfl rfl (by decide) (by decide)

end KakaoRelay
